import Mathlib

/-!
Verification of the English-Tunisian translation pipeline
(`scraper.py`, `retry_failed.py`).

Strings from the Python code are modelled as lists of characters so that
the stripping and splitting done by `read_sentences` can be reasoned
about structurally.  Remote behaviour (the composition of `call_klemy`
and `extract_fs3_paragraph`) is an oracle mapping each attempt index to
either a raised network error or the extraction result of the returned
document; the HTML-extraction rule itself is outside the modelled core.
File-system state (the CSV sinks and the checkpoint file) is a `World`
record threaded through the entry points `main` (here `runMain`) and
`retry_failed.main` (here `runRetry`).
-/

abbrev Str := List Char

/-- The whitespace characters removed by the `str.strip()` call in
`read_sentences` (ASCII whitespace). -/
def isPySpace (c : Char) : Bool :=
  c = ' ' || c = '\t' || c = '\n' || c = '\r' || c = '\x0b' || c = '\x0c'

/-- Remove trailing whitespace, as the right half of `str.strip()`. -/
def stripRight (l : Str) : Str :=
  (l.reverse.dropWhile isPySpace).reverse

/-- `line.strip()` from `read_sentences`. -/
def pyStrip (l : Str) : Str :=
  stripRight (l.dropWhile isPySpace)

/-- `s.split(sep)` for the single character separator, keeping empty
fields, as Python does: `splitTab "a\t\tb" = ["a", "", "b"]`. -/
def splitTab : Str → List Str
  | [] => [[]]
  | c :: cs =>
    if c = '\t' then [] :: splitTab cs
    else
      match splitTab cs with
      | [] => [[c]]
      | f :: r => (c :: f) :: r

/-- `read_sentences` from `scraper.py`: for each line, strip it, split on
tabs, and keep `(parts[0], parts[2])` whenever there are at least three
fields and `parts[1] == "eng"`. -/
def read_sentences : List Str → List (Str × Str)
  | [] => []
  | line :: rest =>
    (match splitTab (pyStrip line) with
     | sentence_id :: lang :: text :: _ =>
       if lang = "eng".toList then [(sentence_id, text)] else []
     | _ => []) ++ read_sentences rest

/-- Claim-side description of one input row: a line contributes an
`(id, text)` pair exactly when its stripped form splits into at least
three tab-separated fields and the second field is the language tag
`eng`; all other lines are dropped silently. -/
def rowSpec (line : Str) : Option (Str × Str) :=
  let parts := splitTab (pyStrip line)
  if 3 ≤ parts.length ∧ parts.getD 1 [] = "eng".toList then
    some (parts.getD 0 [], parts.getD 2 [])
  else
    none

/-! ### The retry policy -/

/-- Configuration constants from `scraper.py`. -/
def MAX_RETRIES : Nat := 3

/-- `RETRY_DELAY = 5.0` seconds. -/
def RETRY_DELAY : ℚ := 5

/-- `REQUEST_DELAY = 5.0` seconds. -/
def REQUEST_DELAY : ℚ := 5

/-- What one attempt of the `try` body in `translate_with_retry` can
observe: either `call_klemy` raises `requests.RequestException`, or it
returns a document whose `extract_fs3_paragraph` extraction is the given
optional fragment. -/
inductive AttemptOutcome where
  | netError : AttemptOutcome
  | response : Option Str → AttemptOutcome
deriving DecidableEq

/-- The remote network as seen through `call_klemy` plus extraction:
indexed by the text sent, the sentence id, and the attempt number. -/
abbrev Oracle := Str → Str → Nat → AttemptOutcome

/-- Python truthiness of `translation` in `if translation:` —
`None` and the empty string are falsy. -/
def pyTruthy : Option Str → Bool
  | none => false
  | some s => !s.isEmpty

/-- Result of `translate_with_retry` together with the number of client
calls issued and the number of `time.sleep(RETRY_DELAY)` executed. -/
structure TRResult where
  translation : Option Str
  status : String
  calls : Nat
  sleeps : Nat
deriving DecidableEq

/-- The `for attempt in range(MAX_RETRIES)` loop of
`translate_with_retry`, recursing over the remaining attempt indices. -/
def twrLoop (att : Nat → AttemptOutcome) : List Nat → TRResult
  | [] => ⟨none, "error", 0, 0⟩
  | attempt :: rest =>
    match att attempt with
    | .response t =>
      if pyTruthy t then ⟨t, "success", 1, 0⟩
      else ⟨none, "no_translation", 1, 0⟩
    | .netError =>
      if attempt < MAX_RETRIES - 1 then
        let r := twrLoop att rest
        ⟨r.translation, r.status, r.calls + 1, r.sleeps + 1⟩
      else ⟨none, "error", 1, 0⟩

/-- `translate_with_retry(text, sentence_id)` under the ambient network
`net`. -/
def translate_with_retry (net : Oracle) (text sentence_id : Str) : TRResult :=
  twrLoop (net text sentence_id) (List.range MAX_RETRIES)

/-- Wall-clock time spent sleeping inside the retry policy for one item. -/
def elapsedTime (r : TRResult) : ℚ := r.sleeps * RETRY_DELAY

/-! ### File-system state and the two entry points -/

/-- A data row of `en_tn_couples.csv` (the success sink). -/
structure SuccessRow where
  id : Str
  english : Str
  tunisian : Str
deriving DecidableEq

/-- A data row of `failed_translations.csv` (the failure sink). -/
structure FailureRow where
  id : Str
  english : Str
  status : String
deriving DecidableEq

/-- A data row of `retry_results.csv` (the retry-results sink). -/
structure RetryRow where
  id : Str
  english : Str
  tunisian : Str
  status : String
deriving DecidableEq

/-- The durable files both scripts touch.  `none` means the file does
not exist; `some rows` is an existing file holding the given data rows
(its header is implicit in existence). -/
structure World where
  success : Option (List SuccessRow)
  failed : Option (List FailureRow)
  checkpoint : Option Str
  retryResults : Option (List RetryRow)
deriving DecidableEq

/-- The `for row in reader` accumulation of `load_processed_ids`: each
row contributes its `id` field when the key is present and truthy;
`processed` is a set, modelled as a duplicate-free list. -/
def collectIds : List (Option Str) → List Str → List Str
  | [], acc => acc
  | r :: rest, acc =>
    match r with
    | some s =>
      if s ≠ [] then
        if s ∈ acc then collectIds rest acc else collectIds rest (acc ++ [s])
      else collectIds rest acc
    | none => collectIds rest acc

/-- `load_processed_ids` from `scraper.py`.  `ex` says whether the
success sink exists, `rows` are the `id` fields the CSV reader yields
before it either finishes or raises, and `raises` says whether reading
raised an exception after those rows.  Returns the accumulated set and
whether the sink file was renamed aside to the `.csv.backup` path. -/
def load_processed_ids (ex : Bool) (rows : List (Option Str)) (raises : Bool) :
    List Str × Bool :=
  if ex then
    (collectIds rows [], raises)
  else
    ([], false)

/-- The already-processed set `main` derives from the current success
sink, in a run where reading the sink does not raise. -/
def processedIds (w : World) : List Str :=
  (load_processed_ids w.success.isSome
    ((w.success.getD []).map (fun r => some r.id)) false).1

/-- The pending list computed at the top of `main`: the parsed sentences
with the already-processed ids filtered out (the filter is only applied
when the processed set is nonempty, as in the source). -/
def pendingOf (w : World) (lines : List Str) : List (Str × Str) :=
  let sentences := read_sentences lines
  let processed := processedIds w
  if processed ≠ [] then sentences.filter (fun p => p.1 ∉ processed)
  else sentences

/-- In-flight state of the `for sentence_id, english_text in tqdm(...)`
loop of `main`: the success rows and failure rows written so far, the
checkpoint content, and the texts of the remote calls issued so far. -/
structure StepState where
  succ : List SuccessRow
  fail : List FailureRow
  ckpt : Option Str
  trace : List Str
deriving DecidableEq

/-- One pass of the item loop of `main`: translate, route the outcome to
the success or failure sink, then overwrite the checkpoint with the id
and sleep `REQUEST_DELAY`. -/
def processItems (net : Oracle) : List (Str × Str) → StepState → StepState
  | [], s => s
  | (sentence_id, english_text) :: rest, s =>
    let r := translate_with_retry net english_text sentence_id
    let s' : StepState :=
      if r.status = "success" then
        { succ := s.succ ++ [⟨sentence_id, english_text, r.translation.getD []⟩]
          fail := s.fail
          ckpt := some sentence_id
          trace := s.trace ++ List.replicate r.calls english_text }
      else
        { succ := s.succ
          fail := s.fail ++ [⟨sentence_id, english_text, r.status⟩]
          ckpt := some sentence_id
          trace := s.trace ++ List.replicate r.calls english_text }
    processItems net rest s'

/-- `main` from `scraper.py` as a state transformer.  `cut` models an
operator interrupt after that many completed items (`none`: run to
completion).  Returns the new world and the texts of the remote calls
issued, in order.  When nothing is pending the function returns before
opening any file, so the world is untouched. -/
def runMain (net : Oracle) (lines : List Str) (cut : Option Nat) (w : World) :
    World × List Str :=
  let pending := pendingOf w lines
  if pending = [] then (w, [])
  else
    let s := processItems net (pending.take (cut.getD pending.length))
      ⟨w.success.getD [], w.failed.getD [], w.checkpoint, []⟩
    ({ success := some s.succ
       failed := some s.fail
       checkpoint := s.ckpt
       retryResults := w.retryResults }, s.trace)

/-- The item loop of `retry_failed.main`: successes are appended to the
primary success sink, everything else becomes a row of the freshly
rewritten retry-results sink. -/
def retryLoop (net : Oracle) :
    List (Str × Str) → List SuccessRow → List RetryRow →
    List SuccessRow × List RetryRow
  | [], succ, retry => (succ, retry)
  | (sentence_id, english_text) :: rest, succ, retry =>
    let r := translate_with_retry net english_text sentence_id
    if r.status = "success" then
      retryLoop net rest
        (succ ++ [⟨sentence_id, english_text, r.translation.getD []⟩]) retry
    else
      retryLoop net rest succ
        (retry ++ [⟨sentence_id, english_text, r.translation.getD [], r.status⟩])

/-- `main` from `retry_failed.py`.  If the failure sink is missing or
holds no data rows the function returns before opening any file;
otherwise the retry-results sink is opened in write mode (so its prior
content is discarded) and the failed items are re-run.  The failure sink
itself is never modified. -/
def runRetry (net : Oracle) (cut : Option Nat) (w : World) : World :=
  match w.failed with
  | none => w
  | some frows =>
    let failed := frows.map (fun r => (r.id, r.english))
    if failed = [] then w
    else
      let out := retryLoop net (failed.take (cut.getD failed.length))
        (w.success.getD []) []
      { success := some out.1
        failed := some frows
        checkpoint := w.checkpoint
        retryResults := some out.2 }

/-- A sequence of pipeline-driver runs: each with its own network
behaviour, input lines and interrupt point. -/
def runAll : List (Oracle × List Str × Option Nat) → World → World
  | [], w => w
  | (net, lines, cut) :: rest, w => runAll rest (runMain net lines cut w).1

/-- The ids currently recorded in the success sink, in row order. -/
def succIds (w : World) : List Str := (w.success.getD []).map (fun r => r.id)

def emptyWorld : World := ⟨none, none, none, none⟩

/-- A network that always raises on `call_klemy`. -/
def netOracle : Oracle := fun _ _ _ => .netError

/-- A network whose every response extracts to the fragment `ok`. -/
def okOracle : Oracle := fun _ _ _ => .response (some ['o', 'k'])

/-! ### Invariants of the retry policy -/

theorem twrLoop_spec (att : Nat → AttemptOutcome) :
    ∀ l : List Nat,
      ((twrLoop att l).status = "success" ∨ (twrLoop att l).status = "no_translation" ∨
        (twrLoop att l).status = "error") ∧
      ((∃ s, (twrLoop att l).translation = some s ∧ s ≠ []) ↔
        (twrLoop att l).status = "success") ∧
      ((twrLoop att l).status ≠ "success" → (twrLoop att l).translation = none)
  | [] => by simp [twrLoop]
  | attempt :: rest => by
    have ih := twrLoop_spec att rest
    cases h : att attempt with
    | response t =>
      cases t with
      | none => simp [twrLoop, h, pyTruthy]
      | some s =>
        by_cases hs : s = []
        · subst hs
          simp [twrLoop, h, pyTruthy]
        · simp [twrLoop, h, pyTruthy, List.isEmpty_iff, hs]
    | netError =>
      by_cases ha : attempt < MAX_RETRIES - 1
      · simpa [twrLoop, h, ha] using ih
      · simp [twrLoop, h, ha]

theorem twr_translation_of_not_success (net : Oracle) (text sid : Str)
    (h : (translate_with_retry net text sid).status ≠ "success") :
    (translate_with_retry net text sid).translation = none :=
  (twrLoop_spec (net text sid) (List.range MAX_RETRIES)).2.2 h

/-- Claim C8: the retry policy always yields exactly one terminal outcome:
the status is one of `success`, `no_translation`, `error`; the returned
translation is a non-empty string precisely when the status is
`success`, and is `None` otherwise.  The raised network error is
consumed inside the loop, never propagated. -/
theorem C8_single_terminal_outcome (net : Oracle) (text sid : Str) :
    ((translate_with_retry net text sid).status = "success" ∨
      (translate_with_retry net text sid).status = "no_translation" ∨
      (translate_with_retry net text sid).status = "error") ∧
    ((∃ s, (translate_with_retry net text sid).translation = some s ∧ s ≠ []) ↔
      (translate_with_retry net text sid).status = "success") ∧
    ((translate_with_retry net text sid).status ≠ "success" →
      (translate_with_retry net text sid).translation = none) :=
  twrLoop_spec (net text sid) (List.range MAX_RETRIES)

/-- Claim C4: an item whose every call raises a network error is attempted
exactly `MAX_RETRIES` times, sleeps the retry delay exactly
`MAX_RETRIES - 1` times, ends in the terminal `error` outcome, and its
elapsed retry time is `(MAX_RETRIES - 1) * RETRY_DELAY`. -/
theorem C4_retry_bound (net : Oracle) (text sid : Str)
    (h : ∀ n, n < MAX_RETRIES → net text sid n = .netError) :
    translate_with_retry net text sid =
      ⟨none, "error", MAX_RETRIES, MAX_RETRIES - 1⟩ ∧
    elapsedTime (translate_with_retry net text sid) =
      ((MAX_RETRIES : ℚ) - 1) * RETRY_DELAY := by
  have h0 := h 0 (by decide)
  have h1 := h 1 (by decide)
  have h2 := h 2 (by decide)
  have hr : List.range MAX_RETRIES = [0, 1, 2] := rfl
  have heq : translate_with_retry net text sid =
      ⟨none, "error", MAX_RETRIES, MAX_RETRIES - 1⟩ := by
    simp [translate_with_retry, hr, twrLoop, h0, h1, h2, MAX_RETRIES]
  refine ⟨heq, ?_⟩
  rw [heq]
  norm_num [elapsedTime, RETRY_DELAY, MAX_RETRIES]

theorem C4_witness :
    (∀ n, n < MAX_RETRIES → netOracle [] [] n = .netError) ∧
    (translate_with_retry netOracle [] [] =
        ⟨none, "error", MAX_RETRIES, MAX_RETRIES - 1⟩ ∧
      elapsedTime (translate_with_retry netOracle [] []) =
        ((MAX_RETRIES : ℚ) - 1) * RETRY_DELAY) :=
  ⟨fun _ _ => rfl, C4_retry_bound netOracle [] [] (fun _ _ => rfl)⟩

/-- A network whose first attempt extracts an empty fragment and whose
later attempts would extract a usable one. -/
def emptyThenOk : Oracle := fun _ _ n =>
  if n = 0 then .response none else .response (some ['o', 'k'])

/-- Claim C3 fails on the code: when the first attempt (which is not the last
allowed attempt, since `MAX_RETRIES = 3`) extracts an empty fragment,
`translate_with_retry` returns the terminal `no_translation` outcome at
once with a single client call and no re-attempt, even though the next
attempt would have succeeded. -/
theorem C3_counterexample :
    emptyThenOk [] [] 0 = .response none ∧ 0 < MAX_RETRIES - 1 ∧
    translate_with_retry emptyThenOk [] [] = ⟨none, "no_translation", 1, 0⟩ := by
  decide

/-- Claim C3 amended: the first attempt whose extraction is an empty fragment
ends the item immediately in the terminal `no_translation` outcome,
whatever the attempt index; only the console warning, not the early
return, is conditioned on the last attempt.  Earlier attempts can only
have been network errors, each followed by one retry sleep. -/
theorem C3_amended_empty_terminal (net : Oracle) (text sid : Str) (k : Nat)
    (hk : k < MAX_RETRIES)
    (hpre : ∀ j, j < k → net text sid j = .netError)
    (hemp : ∃ t, net text sid k = .response t ∧ pyTruthy t = false) :
    translate_with_retry net text sid = ⟨none, "no_translation", k + 1, k⟩ := by
  obtain ⟨t, ht, htr⟩ := hemp
  have hr : List.range MAX_RETRIES = [0, 1, 2] := rfl
  have hk3 : k < 3 := hk
  interval_cases k
  · simp [translate_with_retry, hr, twrLoop, ht, htr, MAX_RETRIES]
  · have h0 := hpre 0 (by decide)
    simp [translate_with_retry, hr, twrLoop, h0, ht, htr, MAX_RETRIES]
  · have h0 := hpre 0 (by decide)
    have h1 := hpre 1 (by decide)
    simp [translate_with_retry, hr, twrLoop, h0, h1, ht, htr, MAX_RETRIES]

/-- A network that raises once, then extracts an empty fragment. -/
def netThenEmpty : Oracle := fun _ _ n =>
  if n = 0 then .netError else .response none

theorem C3_witness :
    (1 < MAX_RETRIES ∧ (∀ j, j < 1 → netThenEmpty [] [] j = .netError) ∧
      (∃ t, netThenEmpty [] [] 1 = .response t ∧ pyTruthy t = false)) ∧
    translate_with_retry netThenEmpty [] [] = ⟨none, "no_translation", 2, 1⟩ :=
  ⟨⟨by decide, fun j hj => by
      have hj0 : j = 0 := by omega
      subst hj0; rfl, ⟨none, rfl, rfl⟩⟩,
    C3_amended_empty_terminal netThenEmpty [] [] 1 (by decide)
      (fun j hj => by
        have hj0 : j = 0 := by omega
        subst hj0; rfl)
      ⟨none, rfl, rfl⟩⟩

/-- Claim C7 fails on the code: when the CSV reader yields some rows and then
raises, `load_processed_ids` does rename the sink aside, but it returns
the ids accumulated before the error instead of the empty done-set its
own recovery message promises. -/
theorem C7_partial_read_kept :
    load_processed_ids true [some ['1']] true = ([['1']], true) ∧
    ([['1']] : List Str) ≠ [] := by
  decide

/-- Claim C10: `read_sentences` is the per-line filter described by the
claim: a line contributes exactly when its stripped form splits into at
least three tab-separated fields with second field `eng`, the
contribution being the pair of the first and third fields; every other
line, including an `eng`-tagged row missing its text column, is dropped
without any record, and no error is raised (the function is total). -/
theorem C10_read_sentences_filter (lines : List Str) :
    read_sentences lines = lines.filterMap rowSpec := by
  induction lines with
  | nil => rfl
  | cons line rest ih =>
    have hline :
        (match splitTab (pyStrip line) with
          | sentence_id :: lang :: text :: _ =>
            if lang = "eng".toList then [(sentence_id, text)] else []
          | _ => []) = (rowSpec line).toList := by
      rcases hp : splitTab (pyStrip line) with _ | ⟨a, _ | ⟨b, _ | ⟨c, t⟩⟩⟩
      · simp [rowSpec, hp]
      · simp [rowSpec, hp]
      · simp [rowSpec, hp]
      · by_cases hb : b = "eng".toList
        · simp [rowSpec, hp, hb, List.getD]
        · have hb2 : ¬b = ['e', 'n', 'g'] := hb
          simp [rowSpec, hp, hb2, List.getD]
    rw [read_sentences, hline, List.filterMap_cons, ih]
    cases hr : rowSpec line <;> simp [hr]

/-! ### The failure re-processor -/

/-- The retry-results row one formerly-failed item contributes, if any:
`None` when the retry succeeds (the row goes to the success sink
instead). -/
def pairSpec (net : Oracle) (p : Str × Str) : Option RetryRow :=
  let t := translate_with_retry net p.2 p.1
  if t.status = "success" then none
  else some ⟨p.1, p.2, t.translation.getD [], t.status⟩

theorem retryLoop_snd (net : Oracle) :
    ∀ (items : List (Str × Str)) (succ : List SuccessRow) (retry : List RetryRow),
      (retryLoop net items succ retry).2 = retry ++ items.filterMap (pairSpec net)
  | [], succ, retry => by simp [retryLoop]
  | (sid, text) :: rest, succ, retry => by
    by_cases h : (translate_with_retry net text sid).status = "success"
    · simp [retryLoop, h, pairSpec, retryLoop_snd net rest]
    · simp [retryLoop, h, pairSpec, retryLoop_snd net rest]

/-- Claim C5: with a failure sink holding exactly items `A` and `B`, if the
retry pass makes `A` succeed and leaves `B` in the terminal `error`
outcome, then afterwards the primary success sink has gained exactly the
row for `A`, and the retry-results sink holds only the row for `B`
tagged `error` — no row for `A`. -/
theorem C5_reprocessing_merge (net : Oracle) (w : World) (a ta b tb : Str)
    (sa sb : String)
    (hf : w.failed = some [⟨a, ta, sa⟩, ⟨b, tb, sb⟩])
    (hA : (translate_with_retry net ta a).status = "success")
    (hB : (translate_with_retry net tb b).status = "error")
    (hab : a ≠ b) :
    (runRetry net none w).success =
      some (w.success.getD [] ++
        [⟨a, ta, (translate_with_retry net ta a).translation.getD []⟩]) ∧
    (runRetry net none w).retryResults = some [⟨b, tb, [], "error"⟩] ∧
    ∀ row ∈ [(⟨b, tb, [], "error"⟩ : RetryRow)], row.id ≠ a := by
  have hBn : (translate_with_retry net tb b).translation = none :=
    twr_translation_of_not_success net tb b (by rw [hB]; decide)
  have hBne : ¬(translate_with_retry net tb b).status = "success" := by
    rw [hB]; decide
  refine ⟨?_, ?_, ?_⟩
  · simp [runRetry, hf, retryLoop, hA, hBne]
  · simp [runRetry, hf, retryLoop, hA, hBne, hB, hBn]
  · simpa using fun h => absurd h.symm hab

/-- The world used to instantiate the re-processing theorems. -/
def wC5 : World :=
  ⟨some [], some [⟨['A'], ['t'], "error"⟩, ⟨['B'], ['u'], "no_translation"⟩],
    none, none⟩

/-- A network that succeeds exactly for sentence id `A`. -/
def oC5 : Oracle := fun _ sid _ =>
  if sid = ['A'] then .response (some ['o', 'k']) else .netError

theorem C5_witness :
    (wC5.failed = some [⟨['A'], ['t'], "error"⟩, ⟨['B'], ['u'], "no_translation"⟩] ∧
      (translate_with_retry oC5 ['t'] ['A']).status = "success" ∧
      (translate_with_retry oC5 ['u'] ['B']).status = "error" ∧
      (['A'] : Str) ≠ ['B']) ∧
    ((runRetry oC5 none wC5).success =
        some (wC5.success.getD [] ++
          [⟨['A'], ['t'], (translate_with_retry oC5 ['t'] ['A']).translation.getD []⟩]) ∧
      (runRetry oC5 none wC5).retryResults = some [⟨['B'], ['u'], [], "error"⟩] ∧
      ∀ row ∈ [(⟨['B'], ['u'], [], "error"⟩ : RetryRow)], row.id ≠ ['A']) :=
  ⟨⟨rfl, by decide, by decide, by decide⟩,
    C5_reprocessing_merge oC5 wC5 ['A'] ['t'] ['B'] ['u'] "error" "no_translation"
      rfl (by decide) (by decide) (by decide)⟩

/-- A world whose failure sink holds one `error` row for item `1`. -/
def wFail : World :=
  ⟨some [], some [⟨['1'], ['h', 'i'], "error"⟩], none, none⟩

/-- Claim C6 fails on the code: after a re-processing pass in which the single
formerly-failed item succeeds, the rewritten retry-results sink is
empty — it does not record the retry outcome of that item, because successes
are routed to the primary success sink only. -/
theorem C6_counterexample :
    wFail.failed = some [⟨['1'], ['h', 'i'], "error"⟩] ∧
    (runRetry okOracle none wFail).retryResults = some [] := by
  decide

/-- Claim C6 amended: each run of the re-processor with a nonempty failure
sink rewrites the retry-results sink from scratch — its final content is
a function of the failure-sink rows and the network alone, one row per
formerly-failed item whose retry did not end in `Success`; items whose
retry succeeded get no retry-results row (their row goes to the primary
success sink). -/
theorem C6_amended_retry_results (net : Oracle) (w : World)
    (frows : List FailureRow) (hf : w.failed = some frows) (hne : frows ≠ []) :
    (runRetry net none w).retryResults =
      some (frows.filterMap (fun r => pairSpec net (r.id, r.english))) := by
  have hmap : ¬frows.map (fun r => (r.id, r.english)) = [] := by
    simpa using hne
  simp only [runRetry, hf, hmap, if_neg, Option.getD_none]
  rw [List.take_length, retryLoop_snd, List.nil_append, List.filterMap_map]
  rfl

theorem C6_witness :
    (wFail.failed = some [⟨['1'], ['h', 'i'], "error"⟩] ∧
      ([(⟨['1'], ['h', 'i'], "error"⟩ : FailureRow)]) ≠ []) ∧
    (runRetry netOracle none wFail).retryResults =
      some ([(⟨['1'], ['h', 'i'], "error"⟩ : FailureRow)].filterMap
        (fun r => pairSpec netOracle (r.id, r.english))) :=
  ⟨⟨rfl, by decide⟩,
    C6_amended_retry_results netOracle wFail [⟨['1'], ['h', 'i'], "error"⟩]
      rfl (by decide)⟩

/-! ### Checkpoint noninterference -/

theorem processItems_ckpt_indep (net : Oracle) (items : List (Str × Str))
    (su : List SuccessRow) (fa : List FailureRow) (tr : List Str)
    (c c' : Option Str) :
    (processItems net items ⟨su, fa, c, tr⟩).succ =
      (processItems net items ⟨su, fa, c', tr⟩).succ ∧
    (processItems net items ⟨su, fa, c, tr⟩).fail =
      (processItems net items ⟨su, fa, c', tr⟩).fail ∧
    (processItems net items ⟨su, fa, c, tr⟩).trace =
      (processItems net items ⟨su, fa, c', tr⟩).trace := by
  cases items with
  | nil => exact ⟨rfl, rfl, rfl⟩
  | cons p rest => exact ⟨rfl, rfl, rfl⟩

/-- Claim C9: two driver runs that differ only in the checkpoint file compute
the same pending set, issue the same sequence of remote calls, and write
the same rows to the success and failure sinks (and leave the
retry-results sink alike): the checkpoint is overwritten after each item
but never read to decide what is done. -/
theorem C9_checkpoint_noninterference (net : Oracle) (lines : List Str)
    (cut : Option Nat) (s : Option (List SuccessRow))
    (f : Option (List FailureRow)) (rr : Option (List RetryRow))
    (c1 c2 : Option Str) :
    pendingOf ⟨s, f, c1, rr⟩ lines = pendingOf ⟨s, f, c2, rr⟩ lines ∧
    (runMain net lines cut ⟨s, f, c1, rr⟩).1.success =
      (runMain net lines cut ⟨s, f, c2, rr⟩).1.success ∧
    (runMain net lines cut ⟨s, f, c1, rr⟩).1.failed =
      (runMain net lines cut ⟨s, f, c2, rr⟩).1.failed ∧
    (runMain net lines cut ⟨s, f, c1, rr⟩).1.retryResults =
      (runMain net lines cut ⟨s, f, c2, rr⟩).1.retryResults ∧
    (runMain net lines cut ⟨s, f, c1, rr⟩).2 =
      (runMain net lines cut ⟨s, f, c2, rr⟩).2 := by
  have hpend : pendingOf ⟨s, f, c2, rr⟩ lines = pendingOf ⟨s, f, c1, rr⟩ lines :=
    rfl
  refine ⟨rfl, ?_⟩
  by_cases hp : pendingOf ⟨s, f, c1, rr⟩ lines = []
  · simp [runMain, hpend, hp]
  · have key := processItems_ckpt_indep net
      ((pendingOf ⟨s, f, c1, rr⟩ lines).take
        (cut.getD (pendingOf ⟨s, f, c1, rr⟩ lines).length))
      (s.getD []) (f.getD []) [] c1 c2
    simp only [runMain, hpend, hp, if_neg, not_false_iff]
    exact ⟨congrArg some key.1, congrArg some key.2.1, trivial, key.2.2⟩

/-! ### Resume behaviour of the driver -/

/-- An input collection with one English sentence. -/
def cexLines : List Str := ["1\teng\thello".toList]

/-- Claim C1 fails on the code: with a single input item whose every call
raises a network error, the first driver run completes and records the
item in the failure sink; a second run with the same input and sinks
still issues three more remote calls and appends a second failure row,
because the done-set is derived from the success sink alone. -/
theorem C1_counterexample :
    (runMain netOracle cexLines none
        ((runMain netOracle cexLines none emptyWorld).1)).2.length = 3 ∧
    (runMain netOracle cexLines none
        ((runMain netOracle cexLines none emptyWorld).1)).1.failed ≠
      (runMain netOracle cexLines none emptyWorld).1.failed := by
  decide

/-- Claim C1 amended: a second driver run issues zero remote calls and leaves
every sink untouched exactly when every input id is already in the
success sink — which is what a first run that ended with all items in
the `Success` state produces, but not a first run that left some item in
a non-Success terminal state (such items are re-attempted, issuing
remote calls and appending further failure rows). -/
theorem C1_amended_resume (net : Oracle) (lines : List Str) (cut : Option Nat)
    (w : World) (h : ∀ p ∈ read_sentences lines, p.1 ∈ processedIds w) :
    runMain net lines cut w = (w, []) := by
  have hpend : pendingOf w lines = [] := by
    unfold pendingOf
    by_cases hproc : processedIds w = []
    · simp only [hproc, ne_eq, not_true_eq_false, if_false]
      cases hs : read_sentences lines with
      | nil => rfl
      | cons p rest =>
        exact absurd (h p (by rw [hs]; exact List.mem_cons_self p rest))
          (by simp [hproc])
    · simp only [ne_eq, hproc, not_false_iff, if_true]
      rw [List.filter_eq_nil_iff]
      intro p hp
      simpa using h p hp
  simp [runMain, hpend]

/-- A success sink already holding the only input item of `cexLines`. -/
def wDone : World :=
  ⟨some [⟨['1'], "hello".toList, ['x']⟩], none, none, none⟩

theorem C1_witness :
    (∀ p ∈ read_sentences cexLines, p.1 ∈ processedIds wDone) ∧
    runMain netOracle cexLines none wDone = (wDone, []) :=
  ⟨by decide, C1_amended_resume netOracle cexLines none wDone (by decide)⟩

/-! ### No duplicate success ids -/

theorem dropWhile_head_false (p : Char → Bool) :
    ∀ (l : Str) (c : Char) (t : Str), l.dropWhile p = c :: t → p c = false
  | [], c, t, h => by simp [List.dropWhile] at h
  | a :: l, c, t, h => by
    rw [List.dropWhile_cons] at h
    by_cases ha : p a
    · rw [if_pos ha] at h
      exact dropWhile_head_false p l c t h
    · rw [if_neg ha] at h
      cases h
      simpa using ha

theorem exists_append_dropWhile (p : Char → Bool) :
    ∀ l : Str, ∃ u, u ++ l.dropWhile p = l
  | [] => ⟨[], rfl⟩
  | a :: l => by
    rw [List.dropWhile_cons]
    by_cases ha : p a
    · rw [if_pos ha]
      obtain ⟨u, hu⟩ := exists_append_dropWhile p l
      exact ⟨a :: u, by rw [List.cons_append, hu]⟩
    · rw [if_neg ha]
      exact ⟨[], rfl⟩

theorem stripRight_append (l : Str) : ∃ r, stripRight l ++ r = l := by
  obtain ⟨u, hu⟩ := exists_append_dropWhile isPySpace l.reverse
  refine ⟨u.reverse, ?_⟩
  have h2 := congrArg List.reverse hu
  simpa [stripRight, List.reverse_append] using h2

theorem pyStrip_head_not_space (l : Str) (c : Char) (t : Str)
    (h : pyStrip l = c :: t) : isPySpace c = false := by
  obtain ⟨r, hr⟩ := stripRight_append (l.dropWhile isPySpace)
  rw [pyStrip] at h
  rw [h] at hr
  exact dropWhile_head_false isPySpace l c (t ++ r) (by rw [← hr]; simp)

theorem splitTab_first_cons (c : Char) (cs : Str) (hc : ¬c = '\t') :
    ∃ f r, splitTab (c :: cs) = (c :: f) :: r := by
  rw [splitTab, if_neg hc]
  cases h : splitTab cs with
  | nil => exact ⟨[], [], rfl⟩
  | cons f r => exact ⟨f, r, rfl⟩

theorem read_sentences_fst_ne_nil :
    ∀ (lines : List Str) (p : Str × Str), p ∈ read_sentences lines → p.1 ≠ []
  | line :: rest, p, hp => by
    rw [read_sentences, List.mem_append] at hp
    rcases hp with hp | hp
    · rcases hs : pyStrip line with _ | ⟨c, cs⟩
      · rw [hs] at hp
        simp [splitTab] at hp
      · have hcs : isPySpace c = false := pyStrip_head_not_space line c cs hs
        have hc : ¬c = '\t' := by
          intro hh
          rw [hh] at hcs
          simp [isPySpace] at hcs
        obtain ⟨f, r, hsp⟩ := splitTab_first_cons c cs hc
        rw [hs, hsp] at hp
        rcases r with _ | ⟨lang, _ | ⟨text, rr⟩⟩
        · simp at hp
        · simp at hp
        · have hp2 : p ∈ (if lang = "eng".toList then
              [((c :: f, text) : Str × Str)] else []) := hp
          by_cases hl : lang = "eng".toList
          · rw [if_pos hl, List.mem_singleton] at hp2
            subst hp2
            simp
          · rw [if_neg hl] at hp2
            simp at hp2
    · exact read_sentences_fst_ne_nil rest p hp

theorem collectIds_mem :
    ∀ (rows : List (Option Str)) (acc : List Str) (x : Str),
      x ∈ collectIds rows acc ↔ x ∈ acc ∨ (some x ∈ rows ∧ x ≠ [])
  | [], acc, x => by simp [collectIds]
  | none :: rest, acc, x => by
    rw [collectIds, collectIds_mem rest acc x]
    simp
  | some s :: rest, acc, x => by
    rw [collectIds]
    by_cases hs : s = []
    · subst hs
      simp only [ne_eq, not_true_eq_false, if_false]
      rw [collectIds_mem rest acc x]
      by_cases hx : x = []
      · subst hx
        simp
      · simp [hx]
    · simp only [ne_eq, hs, not_false_iff, if_true]
      by_cases hx : x = s
      · subst hx
        by_cases hm : x ∈ acc
        · rw [if_pos hm, collectIds_mem rest acc x]
          simp [hm]
        · rw [if_neg hm, collectIds_mem rest (acc ++ [x]) x]
          simp [hs]
      · by_cases hm : s ∈ acc
        · rw [if_pos hm, collectIds_mem rest acc x]
          simp [hx]
        · rw [if_neg hm, collectIds_mem rest (acc ++ [s]) x]
          simp [hx]

theorem processedIds_mem (w : World) (x : Str) :
    x ∈ processedIds w ↔ x ∈ succIds w ∧ x ≠ [] := by
  cases hs : w.success with
  | none => simp [processedIds, load_processed_ids, succIds, hs]
  | some rows =>
    simp only [processedIds, load_processed_ids, hs, Option.isSome_some, if_true,
      Option.getD_some]
    rw [collectIds_mem]
    simp [succIds, hs, List.mem_map]

/-- The success rows one driver pass appends for the given pending
items. -/
def newSucc (net : Oracle) (items : List (Str × Str)) : List SuccessRow :=
  items.filterMap (fun p =>
    if (translate_with_retry net p.2 p.1).status = "success" then
      some ⟨p.1, p.2, (translate_with_retry net p.2 p.1).translation.getD []⟩
    else none)

theorem processItems_succ_eq (net : Oracle) :
    ∀ (items : List (Str × Str)) (s : StepState),
      (processItems net items s).succ = s.succ ++ newSucc net items
  | [], s => by simp [processItems, newSucc]
  | (sid, text) :: rest, s => by
    by_cases h : (translate_with_retry net text sid).status = "success"
    · simp only [processItems, h, if_true]
      rw [processItems_succ_eq net rest]
      simp [newSucc, List.filterMap_cons, h]
    · simp only [processItems, h, if_false]
      rw [processItems_succ_eq net rest]
      simp [newSucc, List.filterMap_cons, h]

theorem newSucc_ids_sublist (net : Oracle) :
    ∀ items : List (Str × Str),
      List.Sublist ((newSucc net items).map (fun r => r.id)) (items.map Prod.fst)
  | [] => by simp [newSucc]
  | (sid, text) :: rest => by
    by_cases h : (translate_with_retry net text sid).status = "success"
    · simpa [newSucc, List.filterMap_cons, h] using
        List.Sublist.cons₂ sid (newSucc_ids_sublist net rest)
    · simpa [newSucc, List.filterMap_cons, h] using
        List.Sublist.cons sid (newSucc_ids_sublist net rest)

/-- The invariant the driver maintains on the success sink: no id twice,
and no empty id (ids written by the driver come from the input reader,
which never produces an empty first field). -/
def SinkInv (w : World) : Prop :=
  (succIds w).Nodup ∧ ∀ x ∈ succIds w, x ≠ []

theorem pending_sublist (w : World) (lines : List Str) :
    List.Sublist (pendingOf w lines) (read_sentences lines) := by
  unfold pendingOf
  by_cases hpr : processedIds w = []
  · simp [hpr]
  · simp only [ne_eq, hpr, not_false_iff, if_true]
    exact List.filter_sublist _

theorem runMain_inv (net : Oracle) (lines : List Str) (cut : Option Nat)
    (w : World) (hl : ((read_sentences lines).map Prod.fst).Nodup)
    (hw : SinkInv w) : SinkInv (runMain net lines cut w).1 := by
  by_cases hp : pendingOf w lines = []
  · simpa [runMain, hp] using hw
  · obtain ⟨hnd, hne⟩ := hw
    have hres : (runMain net lines cut w).1.success =
        some ((w.success.getD []) ++
          newSucc net ((pendingOf w lines).take
            (cut.getD (pendingOf w lines).length))) := by
      simp only [runMain, hp, if_neg, not_false_iff]
      rw [processItems_succ_eq]
    have hsucc : succIds (runMain net lines cut w).1 =
        succIds w ++ (newSucc net ((pendingOf w lines).take
          (cut.getD (pendingOf w lines).length))).map (fun r => r.id) := by
      rw [succIds, hres]
      simp [succIds, List.map_append]
    have hitems : List.Sublist
        (((pendingOf w lines).take (cut.getD (pendingOf w lines).length)).map
          Prod.fst)
        ((read_sentences lines).map Prod.fst) :=
      List.Sublist.map Prod.fst
        (List.Sublist.trans (List.take_sublist _ _) (pending_sublist w lines))
    have hsub : List.Sublist
        ((newSucc net ((pendingOf w lines).take
          (cut.getD (pendingOf w lines).length))).map (fun r => r.id))
        ((read_sentences lines).map Prod.fst) :=
      List.Sublist.trans (newSucc_ids_sublist net _) hitems
    have hnd2 : ((newSucc net ((pendingOf w lines).take
        (cut.getD (pendingOf w lines).length))).map (fun r => r.id)).Nodup :=
      hl.sublist hsub
    have hxne : ∀ x ∈ (newSucc net ((pendingOf w lines).take
        (cut.getD (pendingOf w lines).length))).map (fun r => r.id), x ≠ [] := by
      intro x hx
      obtain ⟨p, hpmem, hpx⟩ := List.mem_map.mp (hsub.subset hx)
      exact hpx ▸ read_sentences_fst_ne_nil lines p hpmem
    have hdisj : (succIds w).Disjoint
        ((newSucc net ((pendingOf w lines).take
          (cut.getD (pendingOf w lines).length))).map (fun r => r.id)) := by
      intro x hxold hxnew
      have hxproc : x ∈ processedIds w :=
        (processedIds_mem w x).mpr ⟨hxold, hxne x hxnew⟩
      have hxpend : x ∈ (pendingOf w lines).map Prod.fst :=
        (List.Sublist.map Prod.fst (List.take_sublist _ _)).subset
          ((newSucc_ids_sublist net _).subset hxnew)
      have hprocne : ¬processedIds w = [] := by
        intro hh
        rw [hh] at hxproc
        exact absurd hxproc (List.not_mem_nil x)
      unfold pendingOf at hxpend
      simp only [ne_eq, hprocne, not_false_iff, if_true] at hxpend
      obtain ⟨q, hqf, hqx⟩ := List.mem_map.mp hxpend
      have hq := List.mem_filter.mp hqf
      rw [hqx] at hq
      have hq2 : x ∉ processedIds w := by simpa using hq.2
      exact hq2 hxproc
    constructor
    · rw [hsucc]
      exact hnd.append hnd2 hdisj
    · rw [hsucc]
      intro x hx
      rcases List.mem_append.mp hx with h | h
      · exact hne x h
      · exact hxne x h

theorem runAll_inv :
    ∀ (runs : List (Oracle × List Str × Option Nat)) (w : World),
      (∀ s ∈ runs, ((read_sentences s.2.1).map Prod.fst).Nodup) → SinkInv w →
      SinkInv (runAll runs w)
  | [], _, _, hw => hw
  | (net, lines, cut) :: rest, w, hr, hw =>
    runAll_inv rest _ (fun s hs => hr s (List.mem_cons_of_mem _ hs))
      (runMain_inv net lines cut w (hr _ (List.mem_cons_self _ _)) hw)

/-- Claim C2 fails on the code: item `1` fails in two consecutive driver runs
(yielding two rows for it in the failure sink — the driver re-attempts
items that are not in the success sink), after which one re-processing
pass that now succeeds appends the id to the success sink twice: the
re-processor neither prunes the failure sink nor checks the success
sink. -/
theorem C2_counterexample :
    succIds (runRetry okOracle none
      ((runMain netOracle cexLines none
        ((runMain netOracle cexLines none emptyWorld).1)).1)) = [['1'], ['1']] ∧
    ¬(succIds (runRetry okOracle none
      ((runMain netOracle cexLines none
        ((runMain netOracle cexLines none emptyWorld).1)).1))).Nodup := by
  decide

/-- Claim C2 amended: across every sequence of pipeline-driver runs alone —
interrupted or not — the success sink never holds the same id twice,
provided the ids of the input of each run are pairwise distinct and the
starting sink satisfies the same invariant; the re-processor is excluded
because a failure-sink id retried successfully more than once is
appended to the success sink each time. -/
theorem C2_amended_no_duplicates
    (runs : List (Oracle × List Str × Option Nat)) (w : World)
    (hw : SinkInv w)
    (hr : ∀ s ∈ runs, ((read_sentences s.2.1).map Prod.fst).Nodup) :
    (succIds (runAll runs w)).Nodup :=
  (runAll_inv runs w hr hw).1

theorem C2_witness :
    (SinkInv emptyWorld ∧
      ∀ s ∈ [(netOracle, cexLines, (none : Option Nat))],
        ((read_sentences s.2.1).map Prod.fst).Nodup) ∧
    (succIds (runAll [(netOracle, cexLines, none)] emptyWorld)).Nodup :=
  ⟨⟨by refine ⟨?_, ?_⟩ <;> decide, fun s hs => by
      rw [List.mem_singleton] at hs
      subst hs
      decide⟩,
    C2_amended_no_duplicates [(netOracle, cexLines, none)] emptyWorld
      (by refine ⟨?_, ?_⟩ <;> decide)
      (fun s hs => by
        rw [List.mem_singleton] at hs
        subst hs
        decide)⟩
